import Mathlib

/-!
Shallow embedding of `petl_django/django_view.py` (a petl ↔ Django adapter).

Conventions of the embedding:
* Python attribute maps / dicts are association lists `List (String × α)`;
  `alookup` is attribute/dict lookup, `pyDict` rebuilds a Python `dict` from a
  pair list (later bindings overwrite earlier ones, insertion order kept).
* A Django model class is `DjModel` (its `_meta.fields`, `_meta.pk`,
  `_meta.label`, `_meta.model_name`); a model instance is `DjInstance`
  (its class's `model_name` plus its attribute map).
* The ORM storage is `DBState` (the rows `model.objects.all()` returns, in
  order) together with `DBEnv`, which says which external storage calls fail
  (a `save()` or `bulk_create()` raising is behaviour of the database, not of
  this code, so it is a parameter).
* Raised exceptions are the `PyErr` sum; `dbError` carries the
  `petl_data` / `petl_chunk_data` attributes the code attaches before
  re-raising.
* Python's dynamic `getattr`/`setattr` against a model instance are modelled
  on the instance's attribute map; `setattr` of a name that is not an
  attribute is the `AttributeError` case that `_apply_value_map` catches.
-/

namespace PetlDjango

deriving instance DecidableEq for Except

/-- Association-list lookup: Python attribute / dict access returning the
first binding (maps built by `pyDict` have unique keys). -/
def alookup {κ β : Type} [DecidableEq κ] : List (κ × β) → κ → Option β
  | [], _ => none
  | p :: ps, k => if p.1 = k then some p.2 else alookup ps k

/-- One Python `d[k] = v`: overwrite the binding in place if the key is
present (keeping insertion order), otherwise append it. -/
def pyDictInsert {κ β : Type} [DecidableEq κ] (m : List (κ × β)) (k : κ) (v : β) :
    List (κ × β) :=
  if m.any (fun p => decide (p.1 = k)) then
    m.map (fun p => if p.1 = k then (k, v) else p)
  else m ++ [(k, v)]

/-- Python `dict(pairs)`: insert the pairs left to right. -/
def pyDict {κ β : Type} [DecidableEq κ] (ps : List (κ × β)) : List (κ × β) :=
  ps.foldl (fun m p => pyDictInsert m p.1 p.2) []

/-- Replace the value stored at key `k` (models mutating, through one alias,
an object that other maps also reference). Keys are untouched. -/
def emapSet {κ β : Type} [DecidableEq κ] (m : List (κ × β)) (k : κ) (v : β) :
    List (κ × β) :=
  m.map (fun e => if e.1 = k then (k, v) else e)

/-- A Django model field: `f.name` and `f.column`. -/
structure DjField where
  name : String
  column : String
  deriving Repr, DecidableEq

/-- A Django model class, by the `_meta` data the adapter reads. -/
structure DjModel where
  fields : List DjField
  pk : DjField
  label : String
  modelName : String
  deriving Repr, DecidableEq

/-- A Django model instance: its class's `model_name` and its attributes. -/
structure DjInstance (α : Type) where
  modelName : String
  attrs : List (String × α)
  deriving Repr, DecidableEq

/-- A raised Python exception, as the adapter can produce or propagate it.
`dbError` is an exception coming out of a storage call (`save()` /
`bulk_create()`); its fields are the underlying message and the `petl_data`
and `petl_chunk_data` attributes the adapter attaches before re-raising. -/
inductive PyErr (α : Type) where
  | attributeError : PyErr α
  | assertionError : String → PyErr α
  | valueError : PyErr α
  | unableToApplyValueMap : String → PyErr α
  | dbError : String → Option (List (String × α)) → Option (List (DjInstance α)) →
      PyErr α
  deriving Repr, DecidableEq

/-- Embeds `_get_model_field_names`. -/
def _get_model_field_names (model : DjModel) : List String :=
  model.fields.map (fun f => f.name)

/-- Embeds `_get_model_column_names`. -/
def _get_model_column_names (model : DjModel) : List String :=
  model.fields.map (fun f => f.column)

/-- Embeds `instance.pk`, i.e. `getattr(instance, model._meta.pk.name)`. -/
def pkOf {α : Type} [DecidableEq α] (model : DjModel) (inst : DjInstance α) :
    Option α :=
  alookup inst.attrs model.pk.name

/-- Embeds `queryset.values_list(*column_names)`: one tuple per record, holding the
named attributes' values in the requested order. -/
def values_list {α : Type} [DecidableEq α] (qs : List (DjInstance α))
    (column_names : List String) : List (List (Option α)) :=
  qs.map (fun r => column_names.map (fun c => alookup r.attrs c))

/-- A Python value, as far as `fromdjango`'s type assertions can see it:
a `QuerySet` (its records, in query order), a model class, or anything
else. -/
inductive PyVal (α : Type) where
  | queryset : List (DjInstance α) → PyVal α
  | modelcls : DjModel → PyVal α
  | other : PyVal α

/-- Embeds the check `type(x) == QuerySet`. -/
def isQuerySetVal {α : Type} : PyVal α → Bool
  | .queryset _ => true
  | _ => false

/-- Embeds the check `issubclass(x, Model)` (for the class objects the embedding can see). -/
def isModelClassVal {α : Type} : PyVal α → Bool
  | .modelcls _ => true
  | _ => false

/-- The `DjangoView` table object (`Table` subclass) that `fromdjango`
returns. -/
structure DjangoView (α : Type) where
  model : DjModel
  queryset : List (DjInstance α)
  fields : Option (List String)

/-- Embeds `_iter_django_model`: the generator's output, as the header row it yields
first and the data rows that follow. -/
def _iter_django_model {α : Type} [DecidableEq α] (model : DjModel)
    (queryset : List (DjInstance α)) (fields : Option (List String)) :
    List String × List (List (Option α)) :=
  let column_names := match fields with
    | none => _get_model_field_names model
    | some fs => fs
  (column_names, values_list queryset column_names)

/-- Embeds `DjangoView.__iter__`. -/
def DjangoView.iter {α : Type} [DecidableEq α] (v : DjangoView α) :
    List String × List (List (Option α)) :=
  _iter_django_model v.model v.queryset v.fields

/-- Embeds `fromdjango`: assert the queryset argument is a `QuerySet` and the model
argument a model class, then return the view. -/
def fromdjango {α : Type} (model : PyVal α) (queryset : PyVal α)
    (fields : Option (List String)) : Except (PyErr α) (DjangoView α) :=
  match queryset with
  | .queryset qs =>
    match model with
    | .modelcls m => .ok ⟨m, qs, fields⟩
    | _ => .error (.assertionError "Must be supplied a valid Django model class")
  | _ => .error (.assertionError "Must be supplied a Django QuerySet")

/-- Embeds `setattr(instance, k, v)` against a model instance, as the adapter's code
expects it to behave: set the attribute when `k` names one of the instance's
attributes, raise `AttributeError` (here: `none`) when it does not. -/
def setattrI {α : Type} [DecidableEq α] (inst : DjInstance α) (k : String)
    (v : α) : Option (DjInstance α) :=
  if (alookup inst.attrs k).isSome then
    some ⟨inst.modelName, emapSet inst.attrs k v⟩
  else none

/-- Embeds `_will_model_change`: scan the value map's items; return `True` at the
first attribute whose current value differs (`getattr` of a name that is not
an attribute raises `AttributeError`), `False` when all agree. -/
def _will_model_change {α : Type} [DecidableEq α] :
    List (String × α) → DjInstance α → Except (PyErr α) Bool
  | [], _ => .ok false
  | (k, v) :: rest, inst =>
    match alookup inst.attrs k with
    | none => .error .attributeError
    | some w => if ¬ w = v then .ok true else _will_model_change rest inst

/-- Embeds `_apply_value_map`: `setattr` each item onto the instance; if a `setattr`
raises `AttributeError`, raise `UnableToApplyValueMapError` naming the field
and the instance's class's `model_name`; return the instance. -/
def _apply_value_map {α : Type} [DecidableEq α] :
    List (String × α) → DjInstance α → Except (PyErr α) (DjInstance α)
  | [], inst => .ok inst
  | (k, v) :: rest, inst =>
    match setattrI inst k v with
    | some inst' => _apply_value_map rest inst'
    | none =>
      .error (.unableToApplyValueMap
        ("Field " ++ k ++ " not present in model " ++ inst.modelName))

/-- The module-level `DEFAULTS` dict. -/
def DEFAULTS : List (String × Nat) := [("BULK_CREATE_CHUNK_SIZE", 50)]

/-- Embeds `_get_setting`: the named value from Django settings, else from
`DEFAULTS`. -/
def _get_setting (settings : List (String × Nat)) (name : String) : Nat :=
  match alookup settings name with
  | some v => v
  | none => (alookup DEFAULTS name).getD 0

/-- Fuel-indexed worker for `pyChunks` (structural recursion on the fuel so
that the kernel can evaluate it; the fuel is always at least the list's
length, so the fuel-exhausted arm is never reached). -/
def pyChunksFuel {β : Type} : Nat → List β → Nat → List (List β)
  | _, [], _ => []
  | _, _ :: _, 0 => []
  | 0, _ :: _, _ + 1 => []
  | fuel + 1, x :: xs, c + 1 =>
    (x :: xs).take (c + 1) :: pyChunksFuel fuel ((x :: xs).drop (c + 1)) (c + 1)

/-- The slices `l[i : i + c]` for `i in range(0, len(l), c)`: what the
chunking loop of `_chunked_bulk_create` walks over (for `c = 0`, Python's
`range` would raise `ValueError` before producing anything). -/
def pyChunks {β : Type} (l : List β) (c : Nat) : List (List β) :=
  pyChunksFuel l.length l c

/-- The behaviour of the external storage during one run: which `save()`
calls and which `bulk_create()` calls raise, and with what message. -/
structure DBEnv (α : Type) where
  saveFail : DjInstance α → Option String
  bulkFail : List (DjInstance α) → Option String

/-- The storage state: the records `model.objects.all()` returns, in
order. -/
structure DBState (α : Type) where
  objects : List (DjInstance α)
  deriving Repr, DecidableEq

/-- A successful `instance.save()`: overwrite the stored record(s) carrying
the instance's primary key, or insert the instance when none does. -/
def dbSave {α : Type} [DecidableEq α] (model : DjModel) (st : DBState α)
    (inst : DjInstance α) : DBState α :=
  match pkOf model inst with
  | none => ⟨st.objects ++ [inst]⟩
  | some p =>
    if st.objects.any (fun o => decide (pkOf model o = some p)) then
      ⟨st.objects.map (fun o => if pkOf model o = some p then inst else o)⟩
    else ⟨st.objects ++ [inst]⟩

/-- The `bulk_create` loop of `_chunked_bulk_create` over an already-chunked
list: each chunk is one `bulk_create` call (recorded in the returned call
trace); a failing call gets the chunk attached as `petl_chunk_data` and its
exception re-raised, ending the loop. -/
def bulkLoop {α : Type} [DecidableEq α] (env : DBEnv α) :
    DBState α → List (List (DjInstance α)) →
    DBState α × List (List (DjInstance α)) × Except (PyErr α) Unit
  | st, [] => (st, [], .ok ())
  | st, c :: cs =>
    match env.bulkFail c with
    | some cause => (st, [c], .error (.dbError cause none (some c)))
    | none =>
      let r := bulkLoop env ⟨st.objects ++ c⟩ cs
      (r.1, c :: r.2.1, r.2.2)

/-- The chunk size `_chunked_bulk_create` ends up using: the explicit
`chunk_size` argument when given, else the configured setting, else the
hard-coded default. -/
def resolveChunkSize (settings : List (String × Nat)) : Option Nat → Nat
  | none => _get_setting settings "BULK_CREATE_CHUNK_SIZE"
  | some c => c

/-- Embeds `_chunked_bulk_create`: resolve the chunk size (argument, else setting,
else default), then `bulk_create` slice by slice (a zero chunk size makes
Python's `range` raise `ValueError` once there is anything to slice). -/
def _chunked_bulk_create {α : Type} [DecidableEq α] (env : DBEnv α)
    (settings : List (String × Nat)) (st : DBState α)
    (unsaved_models : List (DjInstance α)) (chunk_size : Option Nat) :
    DBState α × List (List (DjInstance α)) × Except (PyErr α) Unit :=
  match unsaved_models, resolveChunkSize settings chunk_size with
  | _ :: _, 0 => (st, [], .error .valueError)
  | l, c => bulkLoop env st (pyChunks l c)

/-- A petl table as `todjango` consumes it: the header row, the data rows,
and whether `iter(table)` yields an object exposing a Python-2 style
`next()` method.  A standard Python 3 iterator only has `__next__`, so for
it `legacyNext = false` and the attribute access `table_iterator.next`
raises `AttributeError`. -/
structure PTable (α : Type) where
  legacyNext : Bool
  header : List String
  rows : List (List α)

/-- Embeds `model(**value_map)`: a fresh unsaved instance carrying exactly the
value map's bindings. -/
def mkInstance {α : Type} (model : DjModel) (value_map : List (String × α)) :
    DjInstance α :=
  ⟨model.modelName, value_map⟩

/-- The mutable state of `todjango`'s row loop: the map of existing
instances (whose objects the loop mutates in place), the storage, the
`updated_model_count`, and the `unsaved_models` list. -/
structure LoopState (α : Type) where
  emap : List (Option α × DjInstance α)
  db : DBState α
  updated_count : Nat
  unsaved : List (DjInstance α)
  deriving Repr

/-- The body of `todjango`'s `for row in table_iterator` loop, for one row:
build the value map, look the primary key up among the existing instances,
and either diff/apply/save (update) or construct a new instance and save it
or defer it (create).  A failing `save()` gets the value map attached as
`petl_data` and its exception re-raised. -/
def todjangoStep {α : Type} [DecidableEq α] (model : DjModel) (env : DBEnv α)
    (update use_bulk_create : Bool) (table_headers : List String)
    (acc : LoopState α) (row : List α) : Except (PyErr α) (LoopState α) :=
  let value_map := pyDict (table_headers.zip row)
  let pk : Option α := alookup value_map model.pk.name
  match (if update then alookup acc.emap pk else none) with
  | some django_object =>
    match _will_model_change value_map django_object with
    | .error e => .error e
    | .ok false => .ok acc
    | .ok true =>
      match _apply_value_map value_map django_object with
      | .error e => .error e
      | .ok obj =>
        match env.saveFail obj with
        | some cause => .error (.dbError cause (some value_map) none)
        | none =>
          .ok ⟨emapSet acc.emap pk obj, dbSave model acc.db obj,
               acc.updated_count + 1, acc.unsaved⟩
  | none =>
    let django_object := mkInstance model value_map
    if use_bulk_create then
      .ok ⟨acc.emap, acc.db, acc.updated_count, acc.unsaved ++ [django_object]⟩
    else
      match env.saveFail django_object with
      | some cause => .error (.dbError cause (some value_map) none)
      | none =>
        .ok ⟨acc.emap, dbSave model acc.db django_object,
             acc.updated_count, acc.unsaved⟩

/-- Embeds `todjango`'s row loop over the remaining rows.  On an exception the loop
stops; the storage state reached so far is kept (nothing is rolled back). -/
def todjangoLoop {α : Type} [DecidableEq α] (model : DjModel) (env : DBEnv α)
    (update use_bulk_create : Bool) (table_headers : List String) :
    LoopState α → List (List α) → LoopState α × Option (PyErr α)
  | acc, [] => (acc, none)
  | acc, row :: rest =>
    match todjangoStep model env update use_bulk_create table_headers acc row with
    | .error e => (acc, some e)
    | .ok acc' => todjangoLoop model env update use_bulk_create table_headers acc' rest

/-- What a `todjango` call leaves behind: the storage state after whatever
side effects happened, and either the exception that propagated to the
caller or the pair of counts the code logs
(`updated_model_count`, `len(unsaved_models)`). -/
structure TdOutcome (α : Type) where
  db : DBState α
  result : Except (PyErr α) (Nat × Nat)
  deriving Repr, DecidableEq

/-- Embeds `todjango`.  `iter(table)` then `table_iterator.next()` — an attribute
only Python-2 style iterators have, so a table with a standard iterator
raises `AttributeError` here, before anything else happens.  Otherwise:
check the update invariant (the code tests the model's own field names),
load the existing instances keyed by primary key, run the row loop, then
bulk-create the deferred instances.  The unused `create` argument of the
source is kept. -/
def todjango {α : Type} [DecidableEq α] (table : PTable α) (model : DjModel)
    (update : Bool) (create : Bool) (use_bulk_create : Bool) (env : DBEnv α)
    (settings : List (String × Nat)) (st : DBState α) : TdOutcome α :=
  if table.legacyNext = false then ⟨st, .error .attributeError⟩
  else
    let table_headers := table.header
    let model_pk_field_name := model.pk.name
    let model_field_names := _get_model_field_names model
    if update ∧ ¬ model_pk_field_name ∈ model_field_names then
      ⟨st, .error (.assertionError
        ("To update existing models the data must include the " ++
         "Django primary key field " ++ model_pk_field_name))⟩
    else
      let existing_model_map : List (Option α × DjInstance α) :=
        if update then pyDict (st.objects.map (fun m => (pkOf model m, m)))
        else []
      match todjangoLoop model env update use_bulk_create table_headers
          ⟨existing_model_map, st, 0, []⟩ table.rows with
      | (acc, some e) => ⟨acc.db, .error e⟩
      | (acc, none) =>
        if use_bulk_create then
          match _chunked_bulk_create env settings acc.db acc.unsaved none with
          | (db, _, .error e) => ⟨db, .error e⟩
          | (db, _, .ok ()) => ⟨db, .ok (acc.updated_count, acc.unsaved.length)⟩
        else ⟨acc.db, .ok (acc.updated_count, acc.unsaved.length)⟩

/-- Embeds `dict(zip(table_headers, row))`, the value map `todjango` builds per
row. -/
def vmOf {α : Type} [DecidableEq α] (headers : List String) (row : List α) :
    List (String × α) :=
  pyDict (headers.zip row)

/-- Embeds `value_map.get(model_pk_field_name, None)`: the primary-key value a data
row carries. -/
def rowPk {α : Type} [DecidableEq α] (model : DjModel) (headers : List String)
    (row : List α) : Option α :=
  alookup (vmOf headers row) model.pk.name

/- ### Helper lemmas about the dictionary model -/

theorem alookup_append {κ β : Type} [DecidableEq κ] (m₁ m₂ : List (κ × β))
    (k : κ) :
    alookup (m₁ ++ m₂) k =
      match alookup m₁ k with
      | some v => some v
      | none => alookup m₂ k := by
  induction m₁ with
  | nil => simp [alookup]
  | cons p ps ih =>
    by_cases h : p.1 = k <;> simp [alookup, h, ih]

theorem alookup_isSome_iff {κ β : Type} [DecidableEq κ] (m : List (κ × β))
    (k : κ) :
    (alookup m k).isSome ↔ k ∈ m.map Prod.fst := by
  induction m with
  | nil => simp [alookup]
  | cons p ps ih =>
    by_cases h : p.1 = k
    · simp [alookup, h]
    · simp only [alookup, if_neg h, List.map_cons, List.mem_cons]
      rw [ih]
      constructor
      · exact fun hm => Or.inr hm
      · rintro (hm | hm)
        · exact absurd hm.symm h
        · exact hm

theorem alookup_eq_none_iff {κ β : Type} [DecidableEq κ] (m : List (κ × β))
    (k : κ) :
    alookup m k = none ↔ k ∉ m.map Prod.fst := by
  rw [← alookup_isSome_iff, Option.isSome_iff_exists]
  cases alookup m k <;> simp

theorem mem_of_alookup {κ β : Type} [DecidableEq κ] {m : List (κ × β)}
    {k : κ} {v : β} (h : alookup m k = some v) : (k, v) ∈ m := by
  induction m with
  | nil => simp [alookup] at h
  | cons p ps ih =>
    by_cases hk : p.1 = k
    · simp only [alookup, if_pos hk, Option.some.injEq] at h
      have hp : p = (k, v) := by
        cases p
        simp_all
      rw [hp] at *
      exact List.mem_cons_self _ _
    · simp only [alookup, if_neg hk] at h
      exact List.mem_cons_of_mem _ (ih h)

theorem alookup_of_mem_nodup {κ β : Type} [DecidableEq κ] {m : List (κ × β)}
    {k : κ} {v : β} (hnd : (m.map Prod.fst).Nodup) (h : (k, v) ∈ m) :
    alookup m k = some v := by
  induction m with
  | nil => simp at h
  | cons p ps ih =>
    simp only [List.map_cons, List.nodup_cons] at hnd
    rcases List.mem_cons.mp h with h | h
    · subst h
      simp [alookup]
    · have hk : p.1 ≠ k := by
        intro hcontra
        exact hnd.1 (hcontra ▸ (List.mem_map.mpr ⟨(k, v), h, rfl⟩))
      simp [alookup, hk, ih hnd.2 h]

theorem emapSet_cons {κ β : Type} [DecidableEq κ] (p : κ × β)
    (ps : List (κ × β)) (k : κ) (v : β) :
    emapSet (p :: ps) k v =
      (if p.1 = k then (k, v) else p) :: emapSet ps k v := rfl

theorem emapSet_keys {κ β : Type} [DecidableEq κ] (m : List (κ × β)) (k : κ)
    (v : β) : (emapSet m k v).map Prod.fst = m.map Prod.fst := by
  induction m with
  | nil => rfl
  | cons p ps ih =>
    rw [emapSet_cons, List.map_cons, List.map_cons, ih]
    by_cases h : p.1 = k <;> simp [h]

theorem alookup_emapSet_self {κ β : Type} [DecidableEq κ] {m : List (κ × β)}
    {k : κ} (v : β) (h : (alookup m k).isSome) :
    alookup (emapSet m k v) k = some v := by
  induction m with
  | nil => simp [alookup] at h
  | cons p ps ih =>
    rw [emapSet_cons]
    by_cases hk : p.1 = k
    · rw [if_pos hk]
      simp [alookup]
    · rw [if_neg hk]
      simp only [alookup, if_neg hk] at h ⊢
      exact ih h

theorem alookup_emapSet_ne {κ β : Type} [DecidableEq κ] (m : List (κ × β))
    {k k' : κ} (v : β) (h : k' ≠ k) :
    alookup (emapSet m k v) k' = alookup m k' := by
  induction m with
  | nil => rfl
  | cons p ps ih =>
    rw [emapSet_cons]
    by_cases hk : p.1 = k
    · rw [if_pos hk]
      have hne : ¬ (k, v).1 = k' := fun hc => h hc.symm
      have hne' : ¬ p.1 = k' := by
        rw [hk]
        exact fun hc => h hc.symm
      simp only [alookup, if_neg hne, if_neg hne']
      exact ih
    · rw [if_neg hk]
      by_cases hk' : p.1 = k' <;> simp [alookup, hk', ih]

theorem pyDictInsert_eq_emapSet {κ β : Type} [DecidableEq κ]
    {m : List (κ × β)} {k : κ} (v : β) (h : k ∈ m.map Prod.fst) :
    pyDictInsert m k v = emapSet m k v := by
  have hany : m.any (fun p => decide (p.1 = k)) = true := by
    rcases List.mem_map.mp h with ⟨p, hp, hpk⟩
    exact List.any_eq_true.mpr ⟨p, hp, by simp [hpk]⟩
  simp [pyDictInsert, emapSet, hany]

theorem pyDictInsert_eq_append {κ β : Type} [DecidableEq κ]
    {m : List (κ × β)} {k : κ} (v : β) (h : k ∉ m.map Prod.fst) :
    pyDictInsert m k v = m ++ [(k, v)] := by
  have hany : m.any (fun p => decide (p.1 = k)) = false := by
    rw [List.any_eq_false]
    intro p hp
    simp only [decide_eq_true_eq]
    intro hpk
    exact h (List.mem_map.mpr ⟨p, hp, hpk⟩)
  simp [pyDictInsert, hany]

theorem pyDictInsert_keys {κ β : Type} [DecidableEq κ] (m : List (κ × β))
    (k : κ) (v : β) :
    (pyDictInsert m k v).map Prod.fst =
      if k ∈ m.map Prod.fst then m.map Prod.fst else m.map Prod.fst ++ [k] := by
  by_cases h : k ∈ m.map Prod.fst
  · rw [if_pos h, pyDictInsert_eq_emapSet v h]
    exact emapSet_keys m k v
  · rw [if_neg h, pyDictInsert_eq_append v h]
    simp

theorem pyDict_go_keys_nodup {κ β : Type} [DecidableEq κ] (ps : List (κ × β)) :
    ∀ acc : List (κ × β), (acc.map Prod.fst).Nodup →
      ((ps.foldl (fun m p => pyDictInsert m p.1 p.2) acc).map Prod.fst).Nodup := by
  induction ps with
  | nil => intro acc h; simpa using h
  | cons p ps ih =>
    intro acc h
    simp only [List.foldl_cons]
    apply ih
    rw [pyDictInsert_keys]
    by_cases hm : p.1 ∈ acc.map Prod.fst
    · simpa [hm] using h
    · simp only [if_neg hm]
      refine List.Nodup.append h (List.nodup_singleton _) ?_
      intro a ha hb
      rw [List.mem_singleton] at hb
      exact hm (hb ▸ ha)

theorem pyDict_keys_nodup {κ β : Type} [DecidableEq κ] (ps : List (κ × β)) :
    ((pyDict ps).map Prod.fst).Nodup :=
  pyDict_go_keys_nodup ps [] (by simp)

theorem pyDict_go_eq_append {κ β : Type} [DecidableEq κ] (ps : List (κ × β)) :
    ∀ acc : List (κ × β), (((acc ++ ps).map Prod.fst)).Nodup →
      ps.foldl (fun m p => pyDictInsert m p.1 p.2) acc = acc ++ ps := by
  induction ps with
  | nil => intro acc _; simp
  | cons p ps ih =>
    intro acc h
    simp only [List.foldl_cons]
    have hmem : p.1 ∉ acc.map Prod.fst := by
      simp only [List.map_append, List.nodup_append, List.map_cons] at h
      intro hc
      exact h.2.2 hc (by simp)
    have hins : pyDictInsert acc p.1 p.2 = acc ++ [p] := by
      rw [pyDictInsert_eq_append p.2 hmem]
    rw [hins]
    have := ih (acc ++ [p]) (by simpa using h)
    simpa using this

theorem pyDict_eq_self {κ β : Type} [DecidableEq κ] {ps : List (κ × β)}
    (h : (ps.map Prod.fst).Nodup) : pyDict ps = ps := by
  simpa using pyDict_go_eq_append ps [] (by simpa using h)

theorem pyDict_go_keys_subset {κ β : Type} [DecidableEq κ] (ps : List (κ × β)) :
    ∀ acc : List (κ × β),
      ((ps.foldl (fun m p => pyDictInsert m p.1 p.2) acc).map Prod.fst) ⊆
        acc.map Prod.fst ++ ps.map Prod.fst := by
  induction ps with
  | nil => intro acc; simp
  | cons p ps ih =>
    intro acc
    simp only [List.foldl_cons]
    intro k hk
    have := ih (pyDictInsert acc p.1 p.2) hk
    rw [pyDictInsert_keys] at this
    by_cases hm : p.1 ∈ acc.map Prod.fst
    · rw [if_pos hm] at this
      simp only [List.map_cons, List.mem_append, List.mem_cons] at this ⊢
      tauto
    · rw [if_neg hm] at this
      simp only [List.mem_append, List.mem_singleton, List.map_cons,
        List.mem_cons] at this ⊢
      tauto

theorem pyDict_keys_subset {κ β : Type} [DecidableEq κ] (ps : List (κ × β)) :
    (pyDict ps).map Prod.fst ⊆ ps.map Prod.fst := by
  intro k hk
  simpa using pyDict_go_keys_subset ps [] hk

theorem zip_fst_subset {κ β : Type} : ∀ (l₁ : List κ) (l₂ : List β),
    (l₁.zip l₂).map Prod.fst ⊆ l₁
  | [], _ => by simp
  | _ :: _, [] => by simp
  | a :: l₁, b :: l₂ => by
    simp only [List.zip_cons_cons, List.map_cons, List.cons_subset,
      List.mem_cons, true_or, true_and]
    exact fun k hk => List.mem_cons_of_mem _ (zip_fst_subset l₁ l₂ hk)

theorem vmOf_keys_nodup {α : Type} [DecidableEq α] (headers : List String)
    (row : List α) : ((vmOf headers row).map Prod.fst).Nodup :=
  pyDict_keys_nodup _

theorem vmOf_keys_subset {α : Type} [DecidableEq α] (headers : List String)
    (row : List α) : (vmOf headers row).map Prod.fst ⊆ headers :=
  fun k hk => zip_fst_subset headers row (pyDict_keys_subset _ hk)

theorem alookup_none_keys {γ β : Type} [DecidableEq γ]
    {m : List (Option γ × β)} (h : ∀ e ∈ m, e.1.isSome) :
    alookup m (none : Option γ) = none := by
  induction m with
  | nil => rfl
  | cons p ps ih =>
    have hp : p.1.isSome := h p (List.mem_cons_self _ _)
    have hne : p.1 ≠ none := by
      cases hp1 : p.1
      · rw [hp1] at hp
        exact absurd hp (by simp)
      · simp
    simp only [alookup, if_neg hne]
    exact ih (fun e he => h e (List.mem_cons_of_mem _ he))

/- ### Helper lemmas about the diff / apply / chunking primitives -/

theorem wmc_false_of_agrees {α : Type} [DecidableEq α]
    {vm : List (String × α)} {inst : DjInstance α}
    (h : ∀ p ∈ vm, alookup inst.attrs p.1 = some p.2) :
    _will_model_change vm inst = .ok false := by
  induction vm with
  | nil => rfl
  | cons p ps ih =>
    have hp := h p (List.mem_cons_self _ _)
    cases p with
    | mk k v =>
      simp only [_will_model_change, hp]
      simp only [not_true_eq_false, if_neg]
      exact ih (fun q hq => h q (List.mem_cons_of_mem _ hq))

theorem agrees_of_wmc_false {α : Type} [DecidableEq α]
    {vm : List (String × α)} {inst : DjInstance α}
    (h : _will_model_change vm inst = .ok false) :
    ∀ p ∈ vm, alookup inst.attrs p.1 = some p.2 := by
  induction vm with
  | nil => simp
  | cons p ps ih =>
    intro q hq
    cases p with
    | mk k v =>
      rcases hw : alookup inst.attrs k with _ | w
      · simp [_will_model_change, hw] at h
      · simp only [_will_model_change, hw] at h
        by_cases hv : w = v
        · rw [if_neg (by simp [hv])] at h
          rcases List.mem_cons.mp hq with rfl | hq'
          · simpa [hw] using hv
          · exact ih h q hq'
        · rw [if_pos (by simpa using hv)] at h
          exact absurd h (by simp)

theorem applyVM_ok {α : Type} [DecidableEq α] :
    ∀ (vm : List (String × α)) (inst : DjInstance α),
    (∀ p ∈ vm, (alookup inst.attrs p.1).isSome) →
    ∃ inst', _apply_value_map vm inst = .ok inst' ∧
      inst'.modelName = inst.modelName ∧
      inst'.attrs.map Prod.fst = inst.attrs.map Prod.fst ∧
      (∀ k, k ∉ vm.map Prod.fst →
        alookup inst'.attrs k = alookup inst.attrs k) ∧
      ((vm.map Prod.fst).Nodup →
        ∀ p ∈ vm, alookup inst'.attrs p.1 = some p.2)
  | [], inst, _ => ⟨inst, rfl, rfl, rfl, fun _ _ => rfl, fun _ p hp => by simp at hp⟩
  | (k₀, v₀) :: rest, inst, h => by
    have hk₀ : (alookup inst.attrs k₀).isSome := by
      simpa using h (k₀, v₀) (List.mem_cons_self _ _)
    have hset : setattrI inst k₀ v₀ =
        some ⟨inst.modelName, emapSet inst.attrs k₀ v₀⟩ := by
      simp [setattrI, hk₀]
    have hrest : ∀ p ∈ rest,
        (alookup (DjInstance.mk inst.modelName
          (emapSet inst.attrs k₀ v₀)).attrs p.1).isSome := by
      intro p hp
      rw [alookup_isSome_iff]
      simp only [emapSet_keys]
      rw [← alookup_isSome_iff]
      exact h p (List.mem_cons_of_mem _ hp)
    rcases applyVM_ok rest ⟨inst.modelName, emapSet inst.attrs k₀ v₀⟩ hrest
      with ⟨inst', heq, hname, hkeys, hframe, hagree⟩
    refine ⟨inst', ?_, hname, ?_, ?_, ?_⟩
    · simp only [_apply_value_map, hset]
      exact heq
    · rw [hkeys]
      exact emapSet_keys inst.attrs k₀ v₀
    · intro k hk
      simp only [List.map_cons, List.mem_cons] at hk
      push_neg at hk
      rw [hframe k hk.2]
      exact alookup_emapSet_ne inst.attrs v₀ hk.1
    · intro hnd p hp
      simp only [List.map_cons, List.nodup_cons] at hnd
      rcases List.mem_cons.mp hp with rfl | hp'
      · show alookup inst'.attrs k₀ = some v₀
        rw [hframe k₀ hnd.1]
        exact alookup_emapSet_self v₀ hk₀
      · exact hagree hnd.2 p hp'

theorem applyVM_error_of_missing {α : Type} [DecidableEq α] :
    ∀ (vm : List (String × α)) (inst : DjInstance α),
    (∃ p ∈ vm, alookup inst.attrs p.1 = none) →
    ∃ k, k ∈ vm.map Prod.fst ∧ alookup inst.attrs k = none ∧
      _apply_value_map vm inst = .error (.unableToApplyValueMap
        ("Field " ++ k ++ " not present in model " ++ inst.modelName))
  | [], _, h => by simp at h
  | (k₀, v₀) :: rest, inst, h => by
    rcases hw : alookup inst.attrs k₀ with _ | w
    · refine ⟨k₀, by simp, hw, ?_⟩
      have hset : setattrI inst k₀ v₀ = none := by
        simp [setattrI, hw]
      simp [_apply_value_map, hset]
    · have hset : setattrI inst k₀ v₀ =
          some ⟨inst.modelName, emapSet inst.attrs k₀ v₀⟩ := by
        simp [setattrI, hw]
      have hrest : ∃ p ∈ rest,
          alookup (DjInstance.mk inst.modelName
            (emapSet inst.attrs k₀ v₀)).attrs p.1 = none := by
        rcases h with ⟨p, hp, hnone⟩
        rcases List.mem_cons.mp hp with rfl | hp'
        · rw [hw] at hnone
          exact absurd hnone (by simp)
        · refine ⟨p, hp', ?_⟩
          have hne : p.1 ≠ k₀ := by
            intro hc
            rw [hc, hw] at hnone
            exact absurd hnone (by simp)
          rw [alookup_emapSet_ne inst.attrs v₀ hne]
          exact hnone
      rcases applyVM_error_of_missing rest
          ⟨inst.modelName, emapSet inst.attrs k₀ v₀⟩ hrest
        with ⟨k, hkmem, hknone, herr⟩
      refine ⟨k, List.mem_cons_of_mem _ hkmem, ?_, ?_⟩
      · have hne : k ≠ k₀ := by
          intro hc
          rw [hc] at hknone
          rw [alookup_emapSet_self v₀ (by simp [hw])] at hknone
          exact absurd hknone (by simp)
        rw [← alookup_emapSet_ne inst.attrs v₀ hne]
        exact hknone
      · simp only [_apply_value_map, hset]
        exact herr

theorem bulkLoop_ok {α : Type} [DecidableEq α] (env : DBEnv α) :
    ∀ (chunks : List (List (DjInstance α))) (st : DBState α),
    (∀ c ∈ chunks, env.bulkFail c = none) →
    bulkLoop env st chunks = (⟨st.objects ++ chunks.flatten⟩, chunks, .ok ())
  | [], st, _ => by simp [bulkLoop]
  | c :: cs, st, h => by
    have hc : env.bulkFail c = none := h c (List.mem_cons_self _ _)
    have hrec := bulkLoop_ok env cs ⟨st.objects ++ c⟩
      (fun c' hc' => h c' (List.mem_cons_of_mem _ hc'))
    simp only [bulkLoop, hc, hrec]
    simp [List.flatten_cons, List.append_assoc]

theorem pyChunksFuel_congr {β : Type} :
    ∀ (f₁ : Nat), ∀ (f₂ : Nat) (l : List β) (c : Nat),
      l.length ≤ f₁ → l.length ≤ f₂ →
      pyChunksFuel f₁ l c = pyChunksFuel f₂ l c := by
  intro f₁
  induction f₁ with
  | zero =>
    intro f₂ l c h₁ _
    cases l with
    | nil => cases f₂ <;> rfl
    | cons x xs => simp at h₁
  | succ f ih =>
    intro f₂ l c h₁ h₂
    cases l with
    | nil => cases f₂ <;> rfl
    | cons x xs =>
      cases c with
      | zero =>
        cases f₂ with
        | zero => simp at h₂
        | succ f₂' => rfl
      | succ c' =>
        cases f₂ with
        | zero => simp at h₂
        | succ f₂' =>
          simp only [pyChunksFuel]
          congr 1
          apply ih
          · simp only [List.length_drop, List.length_cons]
            simp only [List.length_cons] at h₁
            omega
          · simp only [List.length_drop, List.length_cons]
            simp only [List.length_cons] at h₂
            omega

theorem pyChunks_nil {β : Type} (c : Nat) : pyChunks ([] : List β) c = [] := rfl

theorem pyChunks_cons {β : Type} (x : β) (xs : List β) (c : Nat) :
    pyChunks (x :: xs) (c + 1) =
      (x :: xs).take (c + 1) :: pyChunks ((x :: xs).drop (c + 1)) (c + 1) := by
  show pyChunksFuel (xs.length + 1) (x :: xs) (c + 1) = _
  simp only [pyChunksFuel]
  unfold pyChunks
  congr 1
  apply pyChunksFuel_congr
  · simp only [List.length_drop, List.length_cons]
    omega
  · exact le_rfl

theorem pyChunks_join {β : Type} :
    ∀ (l : List β) (c : Nat), 0 < c → (pyChunks l c).flatten = l
  | [], _, _ => by simp [pyChunks_nil]
  | x :: xs, c + 1, _ => by
    rw [pyChunks_cons]
    simp only [List.flatten_cons]
    rw [pyChunks_join ((x :: xs).drop (c + 1)) (c + 1) (Nat.succ_pos c)]
    exact List.take_append_drop _ _
termination_by l _ _ => l.length
decreasing_by
  simp only [List.length_drop, List.length_cons]
  omega

theorem pyChunks_length {β : Type} :
    ∀ (l : List β) (c : Nat), 0 < c →
      (pyChunks l c).length = (l.length + c - 1) / c
  | [], c, hc => by
    simp only [pyChunks_nil, List.length_nil]
    rw [Nat.div_eq_of_lt (show 0 + c - 1 < c by omega)]
  | x :: xs, c + 1, _ => by
    rw [pyChunks_cons]
    simp only [List.length_cons]
    rw [pyChunks_length ((x :: xs).drop (c + 1)) (c + 1) (Nat.succ_pos c)]
    simp only [List.length_drop, List.length_cons]
    have hc1 : 0 < c + 1 := Nat.succ_pos c
    by_cases hle : xs.length + 1 ≤ c + 1
    · have h₁ : xs.length + 1 - (c + 1) = 0 := by omega
      rw [h₁]
      have h₂ : (0 + (c + 1) - 1) / (c + 1) = 0 := Nat.div_eq_of_lt (by omega)
      rw [h₂]
      have h₃ : xs.length + 1 + (c + 1) - 1 = xs.length + (c + 1) := by omega
      rw [h₃]
      have h₄ : xs.length + (c + 1) = xs.length + 1 * (c + 1) := by ring
      rw [h₄, Nat.add_mul_div_right _ _ hc1, Nat.div_eq_of_lt (by omega)]
    · have h₁ : xs.length + 1 - (c + 1) + (c + 1) - 1 = xs.length := by omega
      have h₂ : xs.length + 1 + (c + 1) - 1 = xs.length + (c + 1) := by omega
      rw [h₁, h₂, Nat.add_div_right _ hc1]
termination_by l _ _ => l.length
decreasing_by
  simp only [List.length_drop, List.length_cons]
  omega

theorem pyChunks_sizes {β : Type} :
    ∀ (l : List β) (c : Nat) (ch : List β), ch ∈ pyChunks l c → ch.length ≤ c
  | [], _, ch, h => by simp [pyChunks_nil] at h
  | _ :: _, 0, ch, h => by cases h
  | x :: xs, c + 1, ch, h => by
    rw [pyChunks_cons] at h
    rcases List.mem_cons.mp h with rfl | h'
    · simpa using List.length_take_le (c + 1) (x :: xs)
    · exact pyChunks_sizes ((x :: xs).drop (c + 1)) (c + 1) ch h'
termination_by l _ _ _ => l.length
decreasing_by
  simp only [List.length_drop, List.length_cons]
  omega

theorem wmc_total {α : Type} [DecidableEq α] :
    ∀ (vm : List (String × α)) (inst : DjInstance α),
    (∀ p ∈ vm, (alookup inst.attrs p.1).isSome) →
    ∃ b, _will_model_change vm inst = .ok b
  | [], _, _ => ⟨false, rfl⟩
  | (k, v) :: rest, inst, h => by
    have hk : (alookup inst.attrs k).isSome := by
      simpa using h (k, v) (List.mem_cons_self _ _)
    rcases Option.isSome_iff_exists.mp hk with ⟨w, hw⟩
    by_cases hv : w = v
    · rcases wmc_total rest inst (fun p hp => h p (List.mem_cons_of_mem _ hp))
        with ⟨b, hb⟩
      refine ⟨b, ?_⟩
      simp only [_will_model_change, hw, if_neg (not_not_intro hv)]
      exact hb
    · refine ⟨true, ?_⟩
      simp only [_will_model_change, hw, if_pos (by simpa using hv)]

theorem mapPair_fst {γ δ : Type} (f : γ → δ) (l : List γ) :
    (l.map (fun m => (f m, m))).map Prod.fst = l.map f := by
  rw [List.map_map]
  rfl

theorem alookup_isSome_congr {κ β β' : Type} [DecidableEq κ]
    {m : List (κ × β)} {m' : List (κ × β')}
    (h : m.map Prod.fst = m'.map Prod.fst) (k : κ) :
    (alookup m k).isSome = (alookup m' k).isSome := by
  rw [Bool.eq_iff_iff, alookup_isSome_iff, alookup_isSome_iff, h]

theorem mem_emapSet {κ β : Type} [DecidableEq κ] {m : List (κ × β)}
    {k : κ} {v : β} {e : κ × β} (h : e ∈ emapSet m k v) :
    ∃ e₀ ∈ m, e = if e₀.1 = k then (k, v) else e₀ := by
  rcases List.mem_map.mp h with ⟨e₀, he₀, heq⟩
  exact ⟨e₀, he₀, heq.symm⟩

theorem chunked_ok {α : Type} [DecidableEq α] (env : DBEnv α)
    (settings : List (String × Nat)) (st : DBState α)
    (l : List (DjInstance α)) (cs : Option Nat)
    (hC : 0 < resolveChunkSize settings cs)
    (hok : ∀ ch ∈ pyChunks l (resolveChunkSize settings cs),
      env.bulkFail ch = none) :
    _chunked_bulk_create env settings st l cs =
      (⟨st.objects ++ l⟩, pyChunks l (resolveChunkSize settings cs), .ok ()) := by
  rcases hc : resolveChunkSize settings cs with _ | c
  · rw [hc] at hC
    exact absurd hC (by simp)
  · have hred : _chunked_bulk_create env settings st l cs =
        bulkLoop env st (pyChunks l (c + 1)) := by
      unfold _chunked_bulk_create
      rw [hc]
      cases l <;> rfl
    rw [hc] at hok
    rw [hred, bulkLoop_ok env _ st hok,
      pyChunks_join l (c + 1) (Nat.succ_pos c)]

theorem chunked_nil {α : Type} [DecidableEq α] (env : DBEnv α)
    (settings : List (String × Nat)) (st : DBState α) (cs : Option Nat) :
    _chunked_bulk_create env settings st [] cs = (st, [], .ok ()) := by
  unfold _chunked_bulk_create
  rcases hc : resolveChunkSize settings cs with _ | c <;>
    simp [hc, pyChunks_nil, bulkLoop]

theorem alookup_isNone_congr {κ β β' : Type} [DecidableEq κ]
    {m : List (κ × β)} {m' : List (κ × β')}
    (h : m.map Prod.fst = m'.map Prod.fst) (k : κ) :
    (alookup m k).isNone = (alookup m' k).isNone := by
  have hs := alookup_isSome_congr h k
  cases hm : alookup m k <;> cases hm2 : alookup m' k <;>
    rw [hm, hm2] at hs <;> simp_all

/-- If every row's primary key finds an existing instance that already
agrees with the row's value map, the row loop is a complete no-op: no saves,
no creates, no exception. -/
theorem todjango_run2_loop {α : Type} [DecidableEq α]
    (model : DjModel) (env : DBEnv α) (headers : List String) :
    ∀ (rows : List (List α)) (acc : LoopState α),
    (∀ r ∈ rows, ∃ o, alookup acc.emap (rowPk model headers r) = some o ∧
      ∀ p ∈ vmOf headers r, alookup o.attrs p.1 = some p.2) →
    todjangoLoop model env true true headers acc rows = (acc, none)
  | [], _, _ => rfl
  | r :: rest, acc, h => by
    rcases h r (List.mem_cons_self _ _) with ⟨o, ho, hagree⟩
    have hwmc : _will_model_change (vmOf headers r) o = .ok false :=
      wmc_false_of_agrees hagree
    have hstep : todjangoStep model env true true headers acc r = .ok acc := by
      simp only [rowPk, vmOf] at ho
      simp only [vmOf] at hwmc
      simp [todjangoStep, ho, hwmc]
    simp only [todjangoLoop, hstep]
    exact todjango_run2_loop model env headers rest acc
      (fun r' hr' => h r' (List.mem_cons_of_mem _ hr'))

/-- Invariant of `todjango`'s row loop on a first run with `update=True`,
bulk creation, a never-failing store, rows carrying pairwise distinct
present primary keys, and a well-formed map of existing instances: the loop
finishes without exception; the map's entries keep their keys (and stay
keyed by their instance's primary key, with all attributes the header
names); the storage keeps exactly its records, keyed like the map, each
record being the map's instance at its key; the deferred creations are
exactly the unmatched rows' fresh instances in order; every matched row's
map entry ends up agreeing with that row's value map; and map entries at
keys no row mentions are untouched. -/
theorem todjango_run1_loop {α : Type} [DecidableEq α]
    (model : DjModel) (env : DBEnv α) (headers : List String)
    (hsf : ∀ i, env.saveFail i = none) :
    ∀ (rows : List (List α)) (acc : LoopState α),
    (∀ r ∈ rows, (rowPk model headers r).isSome) →
    ((rows.map (rowPk model headers)).Nodup) →
    (∀ e ∈ acc.emap, pkOf model e.2 = e.1 ∧ e.1.isSome = true ∧
      ∀ k ∈ headers, (alookup e.2.attrs k).isSome) →
    (∀ o ∈ acc.db.objects, alookup acc.emap (pkOf model o) = some o) →
    (acc.emap.map Prod.fst = acc.db.objects.map (pkOf model)) →
    ∃ accF,
      todjangoLoop model env true true headers acc rows = (accF, none) ∧
      (∀ e ∈ accF.emap, pkOf model e.2 = e.1 ∧ e.1.isSome = true ∧
        ∀ k ∈ headers, (alookup e.2.attrs k).isSome) ∧
      (∀ o ∈ accF.db.objects, alookup accF.emap (pkOf model o) = some o) ∧
      (accF.emap.map Prod.fst = accF.db.objects.map (pkOf model)) ∧
      (accF.db.objects.map (pkOf model) = acc.db.objects.map (pkOf model)) ∧
      accF.unsaved = acc.unsaved ++
        (rows.filter
          (fun r => (alookup acc.emap (rowPk model headers r)).isNone)).map
          (fun r => mkInstance model (vmOf headers r)) ∧
      (∀ r ∈ rows, (alookup acc.emap (rowPk model headers r)).isSome →
        ∃ o, alookup accF.emap (rowPk model headers r) = some o ∧
          ∀ p ∈ vmOf headers r, alookup o.attrs p.1 = some p.2) ∧
      (∀ q, q ∉ rows.map (rowPk model headers) →
        alookup accF.emap q = alookup acc.emap q)
  | [], acc, _, _, h3, h4, h5 =>
    ⟨acc, rfl, h3, h4, h5, rfl, by simp, by simp, fun _ _ => rfl⟩
  | r :: rest, acc, h1, h2, h3, h4, h5 => by
    have hpk_some : (rowPk model headers r).isSome :=
      h1 r (List.mem_cons_self _ _)
    have h1' : ∀ r' ∈ rest, (rowPk model headers r').isSome :=
      fun r' hr' => h1 r' (List.mem_cons_of_mem _ hr')
    have h2' : ((rest.map (rowPk model headers)).Nodup) := by
      simp only [List.map_cons, List.nodup_cons] at h2
      exact h2.2
    have hpk_notin : rowPk model headers r ∉ rest.map (rowPk model headers) := by
      simp only [List.map_cons, List.nodup_cons] at h2
      exact h2.1
    rcases hmem : alookup acc.emap (rowPk model headers r) with _ | o
    · -- create path: the primary key matches no loaded instance
      have hstep : todjangoStep model env true true headers acc r =
          .ok (LoopState.mk acc.emap acc.db acc.updated_count
            (acc.unsaved ++ [mkInstance model (vmOf headers r)])) := by
        simp only [rowPk, vmOf] at hmem
        simp [todjangoStep, vmOf, hmem]
      rcases todjango_run1_loop model env headers hsf rest
          (LoopState.mk acc.emap acc.db acc.updated_count
            (acc.unsaved ++ [mkInstance model (vmOf headers r)]))
          h1' h2' h3 h4 h5
        with ⟨accF, hloop, k3, k4, k5, kpks, kunsaved, kagree, kframe⟩
      refine ⟨accF, ?_, k3, k4, k5, kpks, ?_, ?_, ?_⟩
      · simp only [todjangoLoop, hstep]
        exact hloop
      · rw [kunsaved]
        simp [List.filter_cons, hmem]
      · intro r' hr' hsome
        rcases List.mem_cons.mp hr' with rfl | hr''
        · rw [hmem] at hsome
          exact absurd hsome (by simp)
        · exact kagree r' hr'' hsome
      · intro q hq
        simp only [List.map_cons, List.mem_cons] at hq
        push_neg at hq
        exact kframe q hq.2
    · -- update path: an existing instance matches
      have hoe : (rowPk model headers r, o) ∈ acc.emap := mem_of_alookup hmem
      rcases h3 _ hoe with ⟨hpko, _, hattrs⟩
      have hvmkeys : ∀ p ∈ vmOf headers r, (alookup o.attrs p.1).isSome :=
        fun p hp =>
          hattrs p.1 (vmOf_keys_subset headers r (List.mem_map_of_mem _ hp))
      rcases wmc_total (vmOf headers r) o hvmkeys with ⟨b, hb⟩
      cases b with
      | false =>
        have hstep : todjangoStep model env true true headers acc r =
            .ok acc := by
          simp only [rowPk, vmOf] at hmem
          simp only [vmOf] at hb
          simp [todjangoStep, hmem, hb]
        rcases todjango_run1_loop model env headers hsf rest acc h1' h2' h3 h4 h5
          with ⟨accF, hloop, k3, k4, k5, kpks, kunsaved, kagree, kframe⟩
        refine ⟨accF, ?_, k3, k4, k5, kpks, ?_, ?_, ?_⟩
        · simp only [todjangoLoop, hstep]
          exact hloop
        · rw [kunsaved]
          simp [List.filter_cons, hmem]
        · intro r' hr' hsome
          rcases List.mem_cons.mp hr' with rfl | hr''
          · refine ⟨o, ?_, agrees_of_wmc_false hb⟩
            rw [kframe _ hpk_notin]
            exact hmem
          · exact kagree r' hr'' hsome
        · intro q hq
          simp only [List.map_cons, List.mem_cons] at hq
          push_neg at hq
          exact kframe q hq.2
      | true =>
        rcases applyVM_ok (vmOf headers r) o hvmkeys
          with ⟨obj, happly, hname, hkeyeq, hframeA, hagreeA⟩
        have hagreeO : ∀ p ∈ vmOf headers r, alookup obj.attrs p.1 = some p.2 :=
          hagreeA (vmOf_keys_nodup headers r)
        rcases Option.isSome_iff_exists.mp hpk_some with ⟨v, hv⟩
        have hpkobj : pkOf model obj = rowPk model headers r := by
          have hvm : alookup (vmOf headers r) model.pk.name = some v := by
            simpa [rowPk] using hv
          have := hagreeO (model.pk.name, v) (mem_of_alookup hvm)
          simpa [pkOf, hv] using this
        have hsave : env.saveFail obj = none := hsf obj
        have hstep : todjangoStep model env true true headers acc r =
            .ok (LoopState.mk
              (emapSet acc.emap (rowPk model headers r) obj)
              (dbSave model acc.db obj)
              (acc.updated_count + 1) acc.unsaved) := by
          simp only [rowPk, vmOf] at hmem
          simp only [vmOf] at hb happly
          simp [todjangoStep, rowPk, vmOf, hmem, hb, happly, hsave]
        -- the saved object's primary key is already present in storage
        have hdbmem : ∃ o' ∈ acc.db.objects, pkOf model o' = some v := by
          have : rowPk model headers r ∈ acc.db.objects.map (pkOf model) := by
            rw [← h5]
            rw [← alookup_isSome_iff]
            simp [hmem]
          rcases List.mem_map.mp this with ⟨o', ho', hpk'⟩
          exact ⟨o', ho', by rw [hpk', hv]⟩
        have hdbsave : dbSave model acc.db obj =
            DBState.mk (acc.db.objects.map
              (fun o' => if pkOf model o' = some v then obj else o')) := by
          have hany : acc.db.objects.any
              (fun o' => decide (pkOf model o' = some v)) = true := by
            rcases hdbmem with ⟨o', ho', hpk'⟩
            exact List.any_eq_true.mpr ⟨o', ho', by simp [hpk']⟩
          simp only [dbSave, hpkobj, hv, hany, if_true]
        -- invariants for the successor state
        have hkeys₁ : (emapSet acc.emap (rowPk model headers r) obj).map
            Prod.fst = acc.emap.map Prod.fst :=
          emapSet_keys acc.emap _ obj
        have h3₁ : ∀ e ∈ emapSet acc.emap (rowPk model headers r) obj,
            pkOf model e.2 = e.1 ∧ e.1.isSome = true ∧
            ∀ k ∈ headers, (alookup e.2.attrs k).isSome := by
          intro e he
          rcases mem_emapSet he with ⟨e₀, he₀, heq⟩
          by_cases hk : e₀.1 = rowPk model headers r
          · rw [heq, if_pos hk]
            refine ⟨hpkobj, by simp [hv], ?_⟩
            intro k hkh
            rw [alookup_isSome_iff]
            simp only [hkeyeq]
            rw [← alookup_isSome_iff]
            exact hattrs k hkh
          · rw [heq, if_neg hk]
            exact h3 e₀ he₀
        have h4₁ : ∀ o' ∈ (dbSave model acc.db obj).objects,
            alookup (emapSet acc.emap (rowPk model headers r) obj)
              (pkOf model o') = some o' := by
          rw [hdbsave]
          intro o' ho'
          rcases List.mem_map.mp ho' with ⟨o₀, ho₀, heq⟩
          by_cases hpk0 : pkOf model o₀ = some v
          · rw [if_pos hpk0] at heq
            rw [← heq, hpkobj]
            exact alookup_emapSet_self obj (by simp [hmem])
          · rw [if_neg hpk0] at heq
            rw [← heq]
            have hne : pkOf model o₀ ≠ rowPk model headers r := by
              rw [hv]
              exact hpk0
            rw [alookup_emapSet_ne acc.emap obj hne]
            exact h4 o₀ ho₀
        have h5₁ : (emapSet acc.emap (rowPk model headers r) obj).map Prod.fst =
            (dbSave model acc.db obj).objects.map (pkOf model) := by
          rw [hkeys₁, hdbsave, h5]
          simp only [List.map_map]
          apply List.map_congr_left
          intro o₀ _
          by_cases hpk0 : pkOf model o₀ = some v
          · simp [Function.comp, hpk0, hpkobj, hv]
          · simp [Function.comp, hpk0]
        rcases todjango_run1_loop model env headers hsf rest
            (LoopState.mk (emapSet acc.emap (rowPk model headers r) obj)
              (dbSave model acc.db obj) (acc.updated_count + 1) acc.unsaved)
            h1' h2' h3₁ h4₁ h5₁
          with ⟨accF, hloop, k3, k4, k5, kpks, kunsaved, kagree, kframe⟩
        have hkeyacc : (emapSet acc.emap (rowPk model headers r) obj).map
            Prod.fst = acc.emap.map Prod.fst := hkeys₁
        refine ⟨accF, ?_, k3, k4, k5, ?_, ?_, ?_, ?_⟩
        · simp only [todjangoLoop, hstep]
          exact hloop
        · -- storage keys unchanged
          rw [kpks, hdbsave]
          simp only [List.map_map]
          apply List.map_congr_left
          intro o₀ _
          by_cases hpk0 : pkOf model o₀ = some v
          · simp [Function.comp, hpk0, hpkobj, hv]
          · simp [Function.comp, hpk0]
        · -- deferred creations
          rw [kunsaved]
          simp only [List.filter_cons, hmem, Option.isNone_some]
          congr 1
          apply congrArg
          apply List.filter_congr
          intro r' _
          exact alookup_isNone_congr hkeyacc (rowPk model headers r')
        · -- matched rows end up agreeing
          intro r' hr' hsome
          rcases List.mem_cons.mp hr' with rfl | hr''
          · refine ⟨obj, ?_, hagreeO⟩
            rw [kframe _ hpk_notin]
            exact alookup_emapSet_self obj (by simp [hmem])
          · refine kagree r' hr'' ?_
            rw [alookup_isSome_congr hkeyacc]
            exact hsome
        · -- untouched keys
          intro q hq
          simp only [List.map_cons, List.mem_cons] at hq
          push_neg at hq
          rw [kframe q hq.2]
          exact alookup_emapSet_ne acc.emap obj hq.1

/- ### Claim theorems -/

/-- C1: for every model class `M` with declared fields and every queryset
`Q`, iterating the table returned by `fromdjango(M, Q, fields)` yields first
a header row equal to `M`'s field names in model-declaration order (or the
supplied `fields` list when it is not `None`), then one row per record of
`Q`, in `Q`'s order, each row holding exactly the selected fields' values. -/
theorem fromdjango_yields_header_then_rows {α : Type} [DecidableEq α]
    (M : DjModel) (Q : List (DjInstance α)) (fields : Option (List String)) :
    ∃ view, fromdjango (PyVal.modelcls M) (PyVal.queryset Q) fields = .ok view ∧
      view.iter.1 = (match fields with
        | none => _get_model_field_names M
        | some fs => fs) ∧
      view.iter.2 =
        Q.map (fun r => view.iter.1.map (fun c => alookup r.attrs c)) ∧
      view.iter.2.length = Q.length := by
  refine ⟨⟨M, Q, fields⟩, rfl, ?_, ?_, ?_⟩ <;>
    cases fields <;>
    simp [DjangoView.iter, _iter_django_model, values_list]

/-- C9: `fromdjango` fails with a descriptive assertion exactly when its
queryset argument is not a `QuerySet` or its model argument is not a model
class, and returns the table view for every queryset and model class. -/
theorem fromdjango_argument_validation {α : Type} (model queryset : PyVal α)
    (fields : Option (List String)) :
    ((∃ view, fromdjango model queryset fields = .ok view) ↔
      isQuerySetVal queryset = true ∧ isModelClassVal model = true) ∧
    (isQuerySetVal queryset = false →
      fromdjango model queryset fields =
        .error (.assertionError "Must be supplied a Django QuerySet")) ∧
    (isQuerySetVal queryset = true → isModelClassVal model = false →
      fromdjango model queryset fields =
        .error (.assertionError "Must be supplied a valid Django model class")) := by
  cases queryset <;> cases model <;>
    simp [fromdjango, isQuerySetVal, isModelClassVal]

/-- Witness for C9 at a concrete ill-typed call. -/
theorem fromdjango_argument_validation_witness :
    fromdjango (α := Nat) PyVal.other PyVal.other none =
      .error (.assertionError "Must be supplied a Django QuerySet") :=
  (fromdjango_argument_validation PyVal.other PyVal.other none).2.1 rfl

/-- C2: `todjango` reads the header via `table_iterator.next()`, a method a
standard Python 3 iterator does not have; so for every table whose iterator
follows the standard protocol the call raises `AttributeError` before any
row is processed and the storage state is unchanged. -/
theorem todjango_raises_attribute_error_for_py3_iterators {α : Type}
    [DecidableEq α] (table : PTable α) (model : DjModel)
    (update create use_bulk_create : Bool) (env : DBEnv α)
    (settings : List (String × Nat)) (st : DBState α)
    (h : table.legacyNext = false) :
    todjango table model update create use_bulk_create env settings st =
      ⟨st, .error .attributeError⟩ := by
  simp [todjango, h]

/-- Witness for C2 at a concrete table and model. -/
theorem todjango_raises_attribute_error_for_py3_iterators_witness :
    todjango (α := Nat) ⟨false, ["id"], [[1]]⟩
      ⟨[⟨"id", "id"⟩], ⟨"id", "id"⟩, "app.M", "m"⟩ true true true
      ⟨fun _ => none, fun _ => none⟩ [] ⟨[]⟩ =
      ⟨⟨[]⟩, .error .attributeError⟩ :=
  todjango_raises_attribute_error_for_py3_iterators _ _ _ _ _ _ _ _ rfl

/-- C6: applying a value map containing a key that is not a field of the
target instance raises `UnableToApplyValueMapError`, whose message names the
offending field and the model. -/
theorem apply_value_map_unknown_field_raises {α : Type} [DecidableEq α]
    (value_map : List (String × α)) (inst : DjInstance α)
    (h : ∃ p ∈ value_map, alookup inst.attrs p.1 = none) :
    ∃ k, k ∈ value_map.map Prod.fst ∧ alookup inst.attrs k = none ∧
      _apply_value_map value_map inst = .error (.unableToApplyValueMap
        ("Field " ++ k ++ " not present in model " ++ inst.modelName)) :=
  applyVM_error_of_missing value_map inst h

/-- Witness for C6 at a concrete map and instance. -/
theorem apply_value_map_unknown_field_raises_witness :
    ∃ k, k ∈ [("bogus", (1 : Nat))].map Prod.fst ∧
      alookup (DjInstance.mk "person" [("name", (0 : Nat))]).attrs k = none ∧
      _apply_value_map [("bogus", (1 : Nat))]
          (DjInstance.mk "person" [("name", (0 : Nat))]) =
        .error (.unableToApplyValueMap ("Field " ++ k ++
          " not present in model " ++
          (DjInstance.mk "person" [("name", (0 : Nat))]).modelName)) :=
  apply_value_map_unknown_field_raises _ _ ⟨("bogus", 1), by decide, by decide⟩

/-- C10 counterexample: on a value map holding a key that is not an
attribute, `_apply_value_map` raises instead of returning the mutated
instance, so the claim's unconditional "returns the very same instance"
fails at this input. -/
theorem apply_value_map_raises_instead_of_returning :
    _apply_value_map [("bogus", (1 : Nat))]
        (DjInstance.mk "person" [("name", (0 : Nat))]) =
      .error (.unableToApplyValueMap "Field bogus not present in model person") ∧
    _apply_value_map [("bogus", (1 : Nat))]
        (DjInstance.mk "person" [("name", (0 : Nat))]) ≠
      .ok (DjInstance.mk "person" [("name", (0 : Nat))]) := by
  constructor
  · decide
  · decide

/-- C10 (amended): for every value map whose keys are distinct and all name
attributes of the instance, `_apply_value_map` returns an instance that has
each mapped attribute set to the mapped value, every other attribute
unchanged, the same attribute-name list and the same model name. -/
theorem apply_value_map_frame {α : Type} [DecidableEq α]
    (value_map : List (String × α)) (inst : DjInstance α)
    (hnd : (value_map.map Prod.fst).Nodup)
    (hkeys : ∀ p ∈ value_map, (alookup inst.attrs p.1).isSome) :
    ∃ inst', _apply_value_map value_map inst = .ok inst' ∧
      inst'.modelName = inst.modelName ∧
      inst'.attrs.map Prod.fst = inst.attrs.map Prod.fst ∧
      (∀ p ∈ value_map, alookup inst'.attrs p.1 = some p.2) ∧
      (∀ k, k ∉ value_map.map Prod.fst →
        alookup inst'.attrs k = alookup inst.attrs k) := by
  rcases applyVM_ok value_map inst hkeys
    with ⟨inst', heq, hname, hkeyeq, hframe, hagree⟩
  exact ⟨inst', heq, hname, hkeyeq, hagree hnd, hframe⟩

/-- Witness for the amended C10 at a concrete map and instance. -/
theorem apply_value_map_frame_witness :
    ∃ inst', _apply_value_map [("age", (31 : Nat))]
        (DjInstance.mk "person" [("id", 1), ("age", 30)]) = .ok inst' ∧
      inst'.modelName = "person" ∧
      inst'.attrs.map Prod.fst = ["id", "age"] ∧
      (∀ p ∈ [("age", (31 : Nat))], alookup inst'.attrs p.1 = some p.2) ∧
      (∀ k, k ∉ ["age"] → alookup inst'.attrs k =
        alookup [("id", (1 : Nat)), ("age", 30)] k) :=
  apply_value_map_frame [("age", 31)] (DjInstance.mk "person" [("id", 1), ("age", 30)])
    (by decide) (by decide)

/-- C3: on `N` unsaved instances with resolved chunk size `C > 0` (explicit
argument, else setting, else the default 50) and no storage failures,
`_chunked_bulk_create` issues exactly `⌈N / C⌉` `bulk_create` calls, each a
contiguous slice of length at most `C`, whose concatenation in call order is
the original list; for `N = 0` no call is issued. -/
theorem chunked_bulk_create_spec {α : Type} [DecidableEq α] (env : DBEnv α)
    (settings : List (String × Nat)) (st : DBState α)
    (unsaved_models : List (DjInstance α)) (chunk_size : Option Nat)
    (hC : 0 < resolveChunkSize settings chunk_size)
    (hok : ∀ ch ∈ pyChunks unsaved_models (resolveChunkSize settings chunk_size),
      env.bulkFail ch = none) :
    ∃ calls, _chunked_bulk_create env settings st unsaved_models chunk_size =
        (⟨st.objects ++ unsaved_models⟩, calls, .ok ()) ∧
      calls.length = (unsaved_models.length + resolveChunkSize settings chunk_size - 1) /
        resolveChunkSize settings chunk_size ∧
      (∀ ch ∈ calls, ch.length ≤ resolveChunkSize settings chunk_size) ∧
      calls.flatten = unsaved_models ∧
      (unsaved_models = [] → calls = []) := by
  rcases hc : resolveChunkSize settings chunk_size with _ | c
  · rw [hc] at hC
    exact absurd hC (by simp)
  · have hred : _chunked_bulk_create env settings st unsaved_models chunk_size =
        bulkLoop env st (pyChunks unsaved_models (c + 1)) := by
      unfold _chunked_bulk_create
      rw [hc]
      cases unsaved_models <;> rfl
    rw [hc] at hok
    refine ⟨pyChunks unsaved_models (c + 1), ?_, ?_, ?_, ?_, ?_⟩
    · rw [hred, bulkLoop_ok env _ st hok,
        pyChunks_join unsaved_models (c + 1) (Nat.succ_pos c)]
    · rw [pyChunks_length unsaved_models (c + 1) (Nat.succ_pos c)]
    · exact fun ch hch => pyChunks_sizes unsaved_models (c + 1) ch hch
    · exact pyChunks_join unsaved_models (c + 1) (Nat.succ_pos c)
    · intro h
      rw [h]
      rfl

/-- Witness for C3: two instances, chunk size resolved from the hard-coded
default (50), both hypotheses discharged concretely. -/
theorem chunked_bulk_create_spec_witness :
    0 < resolveChunkSize [] none ∧
    (∃ calls,
      _chunked_bulk_create (DBEnv.mk (fun _ => none) (fun _ => none)) []
          (DBState.mk ([] : List (DjInstance Nat)))
          [DjInstance.mk "m" [("id", 1)], DjInstance.mk "m" [("id", 2)]] none =
        (DBState.mk [DjInstance.mk "m" [("id", 1)], DjInstance.mk "m" [("id", 2)]],
          calls, .ok ()) ∧
      calls.length =
        ([DjInstance.mk "m" [("id", (1 : Nat))],
          DjInstance.mk "m" [("id", 2)]].length + resolveChunkSize [] none - 1) /
          resolveChunkSize [] none ∧
      (∀ ch ∈ calls, ch.length ≤ resolveChunkSize [] none) ∧
      calls.flatten = [DjInstance.mk "m" [("id", 1)], DjInstance.mk "m" [("id", 2)]] ∧
      ([DjInstance.mk "m" [("id", (1 : Nat))], DjInstance.mk "m" [("id", 2)]] = [] →
        calls = [])) :=
  ⟨by decide,
    chunked_bulk_create_spec (DBEnv.mk (fun _ => none) (fun _ => none)) []
      (DBState.mk []) [DjInstance.mk "m" [("id", 1)], DjInstance.mk "m" [("id", 2)]]
      none (by decide) (fun _ _ => rfl)⟩

/-- C7: the code means to require, for `update=True`, that the data supplies
the model's primary-key column, but the assertion tests the model's own
field-name set (which always contains the primary key), so a table whose
header lacks the primary-key column passes the check and its rows are all
treated as creates: at this concrete input the call returns successfully
(0 updated, 1 created) instead of failing the documented assertion. -/
theorem todjango_missing_pk_column_not_asserted :
    todjango (α := String) ⟨true, ["name"], [["bob"]]⟩
        ⟨[⟨"id", "id"⟩, ⟨"name", "name"⟩], ⟨"id", "id"⟩, "app.Person", "person"⟩
        true true true ⟨fun _ => none, fun _ => none⟩ [] ⟨[]⟩ =
      ⟨⟨[⟨"person", [("name", "bob")]⟩]⟩, .ok (0, 1)⟩ := by
  decide

/-- C4: a row whose primary-key value is absent from the value map, or does
not match the primary key of any loaded existing instance, is handled by the
create path — a new instance from the value map, deferred to the bulk list
or saved immediately — and never updates an existing instance: the map of
existing instances, the update counter, and (in bulk mode) the storage are
untouched.  Holds for any `update` flag, in particular `update = true`.
(The loaded instances all carry a primary key, as instances read back from
storage do.) -/
theorem todjango_unmatched_row_is_create {α : Type} [DecidableEq α]
    (model : DjModel) (env : DBEnv α) (update use_bulk_create : Bool)
    (table_headers : List String) (acc : LoopState α) (row : List α)
    (hloaded : ∀ e ∈ acc.emap, e.1.isSome)
    (hpk : alookup (vmOf table_headers row) model.pk.name = none ∨
      alookup acc.emap (alookup (vmOf table_headers row) model.pk.name) = none)
    (hsave : env.saveFail (mkInstance model (vmOf table_headers row)) = none) :
    todjangoStep model env update use_bulk_create table_headers acc row =
      .ok (LoopState.mk acc.emap
        (if use_bulk_create then acc.db
         else dbSave model acc.db (mkInstance model (vmOf table_headers row)))
        acc.updated_count
        (if use_bulk_create then
          acc.unsaved ++ [mkInstance model (vmOf table_headers row)]
         else acc.unsaved)) := by
  have hnone : alookup acc.emap
      (alookup (vmOf table_headers row) model.pk.name) = none := by
    rcases hpk with h | h
    · rw [h]
      exact alookup_none_keys hloaded
    · exact h
  simp only [vmOf] at hnone hsave ⊢
  cases use_bulk_create <;> cases update <;>
    simp [todjangoStep, hnone, hsave]

/-- Witness for C4: concrete unmatched row (pk 7 against a store holding
only pk 5), bulk mode, `update = true`. -/
theorem todjango_unmatched_row_is_create_witness :
    todjangoStep (DjModel.mk [DjField.mk "id" "id"] (DjField.mk "id" "id")
        "app.M" "m")
      (DBEnv.mk (fun _ => none) (fun _ => none)) true true ["id"]
      (LoopState.mk [(some 5, DjInstance.mk "m" [("id", 5)])]
        (DBState.mk [DjInstance.mk "m" [("id", 5)]]) 0 []) [7] =
      .ok (LoopState.mk [(some 5, DjInstance.mk "m" [("id", 5)])]
        (DBState.mk [DjInstance.mk "m" [("id", 5)]]) 0
        [DjInstance.mk "m" [("id", 7)]]) := by
  have h := todjango_unmatched_row_is_create
    (DjModel.mk [DjField.mk "id" "id"] (DjField.mk "id" "id") "app.M" "m")
    (DBEnv.mk (fun _ => none) (fun _ => none)) true true ["id"]
    (LoopState.mk [(some 5, DjInstance.mk "m" [("id", 5)])]
      (DBState.mk [DjInstance.mk "m" [("id", 5)]]) 0 []) [7]
    (by decide) (Or.inr (by decide)) rfl
  simpa using h

/-- C8: a failing `save()` is re-raised with the triggering row's value map
attached as `petl_data` (both on the update path and on the immediate-save
create path); a failing `bulk_create()` is re-raised with the offending
chunk attached as `petl_chunk_data`; and an exception raised in the row
loop stops it and propagates unchanged. -/
theorem todjango_error_annotations {α : Type} [DecidableEq α]
    (model : DjModel) (env : DBEnv α) (use_bulk_create : Bool)
    (table_headers : List String) (acc : LoopState α) (row : List α)
    (rest : List (List α)) (obj obj' : DjInstance α) (cause : String)
    (st : DBState α) (ch : List (DjInstance α))
    (chs : List (List (DjInstance α))) :
    (alookup acc.emap (alookup (vmOf table_headers row) model.pk.name) =
        some obj →
      _will_model_change (vmOf table_headers row) obj = .ok true →
      _apply_value_map (vmOf table_headers row) obj = .ok obj' →
      env.saveFail obj' = some cause →
      todjangoStep model env true use_bulk_create table_headers acc row =
        .error (.dbError cause (some (vmOf table_headers row)) none)) ∧
    (alookup acc.emap (alookup (vmOf table_headers row) model.pk.name) =
        none →
      env.saveFail (mkInstance model (vmOf table_headers row)) = some cause →
      todjangoStep model env true false table_headers acc row =
        .error (.dbError cause (some (vmOf table_headers row)) none)) ∧
    (env.bulkFail ch = some cause →
      bulkLoop env st (ch :: chs) =
        (st, [ch], .error (.dbError cause none (some ch)))) ∧
    (todjangoStep model env true use_bulk_create table_headers acc row =
        .error (.dbError cause (some (vmOf table_headers row)) none) →
      todjangoLoop model env true use_bulk_create table_headers acc
          (row :: rest) =
        (acc, some (.dbError cause (some (vmOf table_headers row)) none))) := by
  refine ⟨?_, ?_, ?_, ?_⟩
  · intro h₁ h₂ h₃ h₄
    simp only [vmOf] at h₁ h₂ h₃ ⊢
    simp [todjangoStep, h₁, h₂, h₃, h₄]
  · intro h₁ h₂
    simp only [vmOf] at h₁ h₂ ⊢
    simp [todjangoStep, h₁, h₂]
  · intro h
    simp [bulkLoop, h]
  · intro h
    simp [todjangoLoop, h]

/-- Witness for C8: a concrete failing `bulk_create` call gets the chunk
attached. -/
theorem todjango_error_annotations_witness :
    bulkLoop (DBEnv.mk (α := Nat) (fun _ => none) (fun _ => some "boom"))
        (DBState.mk []) [[DjInstance.mk "m" [("id", 1)]]] =
      (DBState.mk [], [[DjInstance.mk "m" [("id", 1)]]],
        .error (.dbError "boom" none (some [DjInstance.mk "m" [("id", 1)]]))) :=
  (todjango_error_annotations (DjModel.mk [DjField.mk "id" "id"]
      (DjField.mk "id" "id") "app.M" "m")
    (DBEnv.mk (fun _ => none) (fun _ => some "boom")) true ["id"]
    (LoopState.mk [] (DBState.mk []) 0 []) [1] []
    (DjInstance.mk "m" [("id", 1)]) (DjInstance.mk "m" [("id", 1)]) "boom"
    (DBState.mk []) [DjInstance.mk "m" [("id", 1)]] []).2.2.1 rfl

/-- C5 counterexample: with `update=True` and an input table whose two rows
share primary key 1 with different values, the second run of the write
adapter over the storage produced by the first performs two updates (the two
rows keep flipping the surviving instance back and forth), not zero. -/
theorem todjango_second_run_updates_counterexample :
    (todjango (α := Nat) (PTable.mk true ["id", "age"] [[1, 10], [1, 20]])
        (DjModel.mk [DjField.mk "id" "id", DjField.mk "age" "age"]
          (DjField.mk "id" "id") "app.P" "person") true true true
        (DBEnv.mk (fun _ => none) (fun _ => none)) []
        (todjango (PTable.mk true ["id", "age"] [[1, 10], [1, 20]])
          (DjModel.mk [DjField.mk "id" "id", DjField.mk "age" "age"]
            (DjField.mk "id" "id") "app.P" "person") true true true
          (DBEnv.mk (fun _ => none) (fun _ => none)) [] (DBState.mk [])).db).result =
      Except.ok (2, 0) ∧
    (todjango (α := Nat) (PTable.mk true ["id", "age"] [[1, 10], [1, 20]])
        (DjModel.mk [DjField.mk "id" "id", DjField.mk "age" "age"]
          (DjField.mk "id" "id") "app.P" "person") true true true
        (DBEnv.mk (fun _ => none) (fun _ => none)) []
        (todjango (PTable.mk true ["id", "age"] [[1, 10], [1, 20]])
          (DjModel.mk [DjField.mk "id" "id", DjField.mk "age" "age"]
            (DjField.mk "id" "id") "app.P" "person") true true true
          (DBEnv.mk (fun _ => none) (fun _ => none)) [] (DBState.mk [])).db).result ≠
      Except.ok (0, 0) := by
  constructor
  · decide
  · decide

/-- C5 (amended): running the write adapter twice with the identical input
table and `update=True` performs zero save-for-update operations the second
time — provided the rows carry pairwise distinct, present primary-key
values, the storage calls never fail, the resolved chunk size is positive,
and the initial store is well formed (records with distinct present primary
keys and an attribute for every header column).  The counterexample theorem
shows the distinctness proviso is necessary. -/
theorem todjango_second_run_no_updates {α : Type} [DecidableEq α]
    (table : PTable α) (model : DjModel) (env : DBEnv α)
    (settings : List (String × Nat)) (st0 : DBState α)
    (hleg : table.legacyNext = true)
    (hassert : model.pk.name ∈ _get_model_field_names model)
    (hsf : ∀ i, env.saveFail i = none)
    (hbf : ∀ l, env.bulkFail l = none)
    (hchunk : 0 < resolveChunkSize settings none)
    (hdbpk : ∀ o ∈ st0.objects, (pkOf model o).isSome)
    (hdbnodup : (st0.objects.map (pkOf model)).Nodup)
    (hdbattrs : ∀ o ∈ st0.objects, ∀ k ∈ table.header,
      (alookup o.attrs k).isSome)
    (hrowpk : ∀ r ∈ table.rows, (rowPk model table.header r).isSome)
    (hrownodup : (table.rows.map (rowPk model table.header)).Nodup) :
    ∃ n c,
      (todjango table model true true true env settings st0).result =
        .ok (n, c) ∧
      (todjango table model true true true env settings
          (todjango table model true true true env settings st0).db).result =
        .ok (0, 0) ∧
      (todjango table model true true true env settings
          (todjango table model true true true env settings st0).db).db =
        (todjango table model true true true env settings st0).db := by
  have hpairs : (st0.objects.map (fun m => (pkOf model m, m))).map Prod.fst =
      st0.objects.map (pkOf model) := mapPair_fst _ _
  have hemap0eq : pyDict (st0.objects.map (fun m => (pkOf model m, m))) =
      st0.objects.map (fun m => (pkOf model m, m)) :=
    pyDict_eq_self (by rw [hpairs]; exact hdbnodup)
  have h3₀ : ∀ e ∈ pyDict (st0.objects.map (fun m => (pkOf model m, m))),
      pkOf model e.2 = e.1 ∧ e.1.isSome = true ∧
      ∀ k ∈ table.header, (alookup e.2.attrs k).isSome := by
    rw [hemap0eq]
    intro e he
    rcases List.mem_map.mp he with ⟨m, hm, rfl⟩
    exact ⟨rfl, hdbpk m hm, hdbattrs m hm⟩
  have h4₀ : ∀ o ∈ st0.objects,
      alookup (pyDict (st0.objects.map (fun m => (pkOf model m, m))))
        (pkOf model o) = some o := by
    intro o ho
    rw [hemap0eq]
    apply alookup_of_mem_nodup
    · rw [hpairs]
      exact hdbnodup
    · exact List.mem_map_of_mem _ ho
  have h5₀ : (pyDict (st0.objects.map (fun m => (pkOf model m, m)))).map
      Prod.fst = st0.objects.map (pkOf model) := by
    rw [hemap0eq, hpairs]
  rcases todjango_run1_loop model env table.header hsf table.rows
      (LoopState.mk (pyDict (st0.objects.map (fun m => (pkOf model m, m))))
        st0 0 []) hrowpk hrownodup h3₀ h4₀ h5₀
    with ⟨accF, hloop, k3, k4, k5, kpks, kunsaved, kagree, kframe⟩
  have hbulk1 : _chunked_bulk_create env settings accF.db accF.unsaved none =
      (⟨accF.db.objects ++ accF.unsaved⟩,
        pyChunks accF.unsaved (resolveChunkSize settings none), .ok ()) :=
    chunked_ok env settings accF.db accF.unsaved none hchunk
      (fun ch _ => hbf ch)
  have hrun1 : todjango table model true true true env settings st0 =
      ⟨⟨accF.db.objects ++ accF.unsaved⟩,
        .ok (accF.updated_count, accF.unsaved.length)⟩ := by
    simp only [todjango, hleg, hassert, eq_self_iff_true, not_true, true_and,
      and_false, if_false, if_true, Bool.true_eq_false]
    split
    · next acc e heq =>
      rw [hloop] at heq
      simp at heq
    · next acc heq =>
      rw [hloop] at heq
      have hacc : accF = acc := (Prod.mk.injEq _ _ _ _ ▸ heq).1
      subst hacc
      split
      · next db calls e heq2 =>
        rw [hbulk1] at heq2
        simp at heq2
      · next db calls heq2 =>
        rw [hbulk1] at heq2
        have hdb : DBState.mk (accF.db.objects ++ accF.unsaved) = db :=
          (Prod.mk.injEq _ _ _ _ ▸ heq2).1
        rw [← hdb]
  -- the storage the first run leaves behind
  have hunsaved : accF.unsaved =
      (table.rows.filter (fun r =>
        (alookup (pyDict (st0.objects.map (fun m => (pkOf model m, m))))
          (rowPk model table.header r)).isNone)).map
        (fun r => mkInstance model (vmOf table.header r)) := by
    rw [kunsaved]
    simp
  have hcreatepks : accF.unsaved.map (pkOf model) =
      (table.rows.filter (fun r =>
        (alookup (pyDict (st0.objects.map (fun m => (pkOf model m, m))))
          (rowPk model table.header r)).isNone)).map
        (rowPk model table.header) := by
    rw [hunsaved, List.map_map]
    apply List.map_congr_left
    intro r _
    rfl
  have hpks1 : (accF.db.objects ++ accF.unsaved).map (pkOf model) =
      st0.objects.map (pkOf model) ++
      (table.rows.filter (fun r =>
        (alookup (pyDict (st0.objects.map (fun m => (pkOf model m, m))))
          (rowPk model table.header r)).isNone)).map
        (rowPk model table.header) := by
    rw [List.map_append, kpks, hcreatepks]
  have hfiltered_not_st0 : ∀ q, q ∈ (table.rows.filter (fun r =>
      (alookup (pyDict (st0.objects.map (fun m => (pkOf model m, m))))
        (rowPk model table.header r)).isNone)).map
      (rowPk model table.header) → q ∉ st0.objects.map (pkOf model) := by
    intro q hq
    rcases List.mem_map.mp hq with ⟨r, hr, rfl⟩
    have := (List.mem_filter.mp hr).2
    rw [Option.isNone_iff_eq_none] at this
    rw [← h5₀]
    rw [← alookup_eq_none_iff] at *
    exact this
  have hnodup1 : ((accF.db.objects ++ accF.unsaved).map (pkOf model)).Nodup := by
    rw [hpks1]
    refine List.Nodup.append hdbnodup ?_ ?_
    · exact List.Nodup.sublist
        (List.Sublist.map _ (List.filter_sublist _)) hrownodup
    · intro q hq hq'
      exact hfiltered_not_st0 q hq' hq
  have hemap2keys : ((accF.db.objects ++ accF.unsaved).map
      (fun m => (pkOf model m, m))).map Prod.fst =
      (accF.db.objects ++ accF.unsaved).map (pkOf model) := mapPair_fst _ _
  have hemap2eq : pyDict ((accF.db.objects ++ accF.unsaved).map
      (fun m => (pkOf model m, m))) =
      (accF.db.objects ++ accF.unsaved).map (fun m => (pkOf model m, m)) :=
    pyDict_eq_self (by rw [hemap2keys]; exact hnodup1)
  have hlook2 : ∀ o ∈ accF.db.objects ++ accF.unsaved,
      alookup (pyDict ((accF.db.objects ++ accF.unsaved).map
        (fun m => (pkOf model m, m)))) (pkOf model o) = some o := by
    intro o ho
    rw [hemap2eq]
    apply alookup_of_mem_nodup
    · rw [hemap2keys]
      exact hnodup1
    · exact List.mem_map_of_mem _ ho
  -- every row of the table finds an agreeing instance in the new storage
  have hmatch2 : ∀ r ∈ table.rows, ∃ o,
      alookup (pyDict ((accF.db.objects ++ accF.unsaved).map
        (fun m => (pkOf model m, m)))) (rowPk model table.header r) = some o ∧
      ∀ p ∈ vmOf table.header r, alookup o.attrs p.1 = some p.2 := by
    intro r hr
    rcases hcase : alookup (pyDict (st0.objects.map (fun m => (pkOf model m, m))))
        (rowPk model table.header r) with _ | o₀
    · -- the first run created this row's instance
      have hrf : r ∈ table.rows.filter (fun r =>
          (alookup (pyDict (st0.objects.map (fun m => (pkOf model m, m))))
            (rowPk model table.header r)).isNone) := by
        rw [List.mem_filter]
        exact ⟨hr, by rw [hcase]; rfl⟩
      have hmk : mkInstance model (vmOf table.header r) ∈ accF.unsaved := by
        rw [hunsaved]
        exact List.mem_map_of_mem _ hrf
      have hpkmk : pkOf model (mkInstance model (vmOf table.header r)) =
          rowPk model table.header r := rfl
      refine ⟨mkInstance model (vmOf table.header r), ?_, ?_⟩
      · rw [← hpkmk]
        exact hlook2 _ (List.mem_append_right _ hmk)
      · intro p hp
        exact alookup_of_mem_nodup (vmOf_keys_nodup _ _) hp
    · -- the first run updated (or left agreeing) this row's instance
      have hsome : (alookup (pyDict (st0.objects.map
          (fun m => (pkOf model m, m)))) (rowPk model table.header r)).isSome := by
        rw [hcase]
        rfl
      rcases kagree r hr hsome with ⟨o, ho, hagree⟩
      have hpko : pkOf model o = rowPk model table.header r :=
        (k3 _ (mem_of_alookup ho)).1
      have hodb : o ∈ accF.db.objects := by
        have hkey : rowPk model table.header r ∈
            accF.db.objects.map (pkOf model) := by
          rw [← k5, ← alookup_isSome_iff, ho]
          rfl
        rcases List.mem_map.mp hkey with ⟨o', ho', hpk'⟩
        have h' := k4 o' ho'
        rw [hpk'] at h'
        have heq : o = o' := by
          have h12 : some o = some o' := ho.symm.trans h'
          injection h12
        rw [heq]
        exact ho'
      refine ⟨o, ?_, hagree⟩
      rw [← hpko]
      exact hlook2 o (List.mem_append_left _ hodb)
  have hloop2 : todjangoLoop model env true true table.header
      (LoopState.mk (pyDict ((accF.db.objects ++ accF.unsaved).map
        (fun m => (pkOf model m, m))))
        (DBState.mk (accF.db.objects ++ accF.unsaved)) 0 []) table.rows =
      (LoopState.mk (pyDict ((accF.db.objects ++ accF.unsaved).map
        (fun m => (pkOf model m, m))))
        (DBState.mk (accF.db.objects ++ accF.unsaved)) 0 [], none) :=
    todjango_run2_loop model env table.header table.rows _ hmatch2
  have hrun2 : todjango table model true true true env settings
      (DBState.mk (accF.db.objects ++ accF.unsaved)) =
      ⟨DBState.mk (accF.db.objects ++ accF.unsaved), .ok (0, 0)⟩ := by
    simp only [todjango, hleg, hassert, eq_self_iff_true, not_true, true_and,
      and_false, if_false, if_true, Bool.true_eq_false]
    split
    · next acc e heq =>
      rw [hloop2] at heq
      simp at heq
    · next acc heq =>
      rw [hloop2] at heq
      have hacc : _ = acc := (Prod.mk.injEq _ _ _ _ ▸ heq).1
      subst hacc
      split
      · next db calls e heq2 =>
        rw [chunked_nil] at heq2
        simp at heq2
      · next db calls heq2 =>
        rw [chunked_nil] at heq2
        have hdb : DBState.mk (accF.db.objects ++ accF.unsaved) = db :=
          (Prod.mk.injEq _ _ _ _ ▸ heq2).1
        rw [← hdb]
        rfl
  refine ⟨accF.updated_count, accF.unsaved.length, ?_, ?_, ?_⟩
  · rw [hrun1]
  · rw [hrun1]
    show (todjango table model true true true env settings
      (DBState.mk (accF.db.objects ++ accF.unsaved))).result = .ok (0, 0)
    rw [hrun2]
  · rw [hrun1]
    show (todjango table model true true true env settings
        (DBState.mk (accF.db.objects ++ accF.unsaved))).db =
      DBState.mk (accF.db.objects ++ accF.unsaved)
    rw [hrun2]

/-- Witness for the amended C5: the spec's own scenario (one existing person,
one row updating it, one row creating a new one), run twice. -/
theorem todjango_second_run_no_updates_witness :
    ∃ n c,
      (todjango (α := Nat) (PTable.mk true ["id", "age"] [[1, 31], [2, 25]])
          (DjModel.mk [DjField.mk "id" "id", DjField.mk "age" "age"]
            (DjField.mk "id" "id") "app.P" "person") true true true
          (DBEnv.mk (fun _ => none) (fun _ => none)) []
          (DBState.mk [DjInstance.mk "person" [("id", 1), ("age", 30)]])).result =
        .ok (n, c) ∧
      (todjango (PTable.mk true ["id", "age"] [[1, 31], [2, 25]])
          (DjModel.mk [DjField.mk "id" "id", DjField.mk "age" "age"]
            (DjField.mk "id" "id") "app.P" "person") true true true
          (DBEnv.mk (fun _ => none) (fun _ => none)) []
          (todjango (PTable.mk true ["id", "age"] [[1, 31], [2, 25]])
            (DjModel.mk [DjField.mk "id" "id", DjField.mk "age" "age"]
              (DjField.mk "id" "id") "app.P" "person") true true true
            (DBEnv.mk (fun _ => none) (fun _ => none)) []
            (DBState.mk [DjInstance.mk "person" [("id", 1), ("age", 30)]])).db).result =
        .ok (0, 0) ∧
      (todjango (PTable.mk true ["id", "age"] [[1, 31], [2, 25]])
          (DjModel.mk [DjField.mk "id" "id", DjField.mk "age" "age"]
            (DjField.mk "id" "id") "app.P" "person") true true true
          (DBEnv.mk (fun _ => none) (fun _ => none)) []
          (todjango (PTable.mk true ["id", "age"] [[1, 31], [2, 25]])
            (DjModel.mk [DjField.mk "id" "id", DjField.mk "age" "age"]
              (DjField.mk "id" "id") "app.P" "person") true true true
            (DBEnv.mk (fun _ => none) (fun _ => none)) []
            (DBState.mk [DjInstance.mk "person" [("id", 1), ("age", 30)]])).db).db =
        (todjango (PTable.mk true ["id", "age"] [[1, 31], [2, 25]])
          (DjModel.mk [DjField.mk "id" "id", DjField.mk "age" "age"]
            (DjField.mk "id" "id") "app.P" "person") true true true
          (DBEnv.mk (fun _ => none) (fun _ => none)) []
          (DBState.mk [DjInstance.mk "person" [("id", 1), ("age", 30)]])).db :=
  todjango_second_run_no_updates
    (PTable.mk true ["id", "age"] [[1, 31], [2, 25]])
    (DjModel.mk [DjField.mk "id" "id", DjField.mk "age" "age"]
      (DjField.mk "id" "id") "app.P" "person")
    (DBEnv.mk (fun _ => none) (fun _ => none)) []
    (DBState.mk [DjInstance.mk "person" [("id", 1), ("age", 30)]])
    rfl (by decide) (fun _ => rfl) (fun _ => rfl) (by decide) (by decide)
    (by decide) (by decide) (by decide) (by decide)

end PetlDjango
